import Mathlib

/-!
Verification development for the info-hunter backend.

This file gives a shallow embedding of the core logic of the repository
(deduplication, ingestion decision table, rate limiting, search query
construction, AI-response schema validation, the enrichment task and the
RAG ask flow) and proves the specified properties about it.

Conventions of the embedding:
- Python strings are Lean `String`s; `str.lower()` is modelled character-wise
  with the ASCII `Char.toLower` (the inputs of interest are ASCII URLs/tags).
- Python byte strings are `List Nat` with entries below 256; `str.encode()`
  is UTF-8 encoding.
- `hashlib.sha256(...).hexdigest()` is implemented in full (FIPS 180-4) over
  `Nat` arithmetic with explicit reduction modulo 2^32.
- Machine floats of the source (timestamps, scores) are modelled as `Rat`.
-/

namespace InfoHunter

/-! ## Python string primitives -/

/-- Model of Python `str.lower()` applied character-wise (ASCII letters,
matching `Char.toLower`). -/
def pyLower (s : String) : String :=
  String.mk (s.data.map Char.toLower)

/-- Strip all trailing `'/'` characters, modelling Python `str.rstrip('/')`. -/
def rstripSlashData (l : List Char) : List Char :=
  (l.reverse.dropWhile (fun c => c = '/')).reverse

/-- Model of Python `source_url.rstrip('/')`. -/
def rstripSlash (s : String) : String :=
  String.mk (rstripSlashData s.data)

/-- The whitespace characters stripped by Python `str.strip()` (ASCII set). -/
def pyIsSpace (c : Char) : Bool :=
  c = ' ' || c = '\t' || c = '\n' || c = '\r' || c = '\x0b' || c = '\x0c'

/-- Model of Python `str.strip()`: remove leading and trailing whitespace. -/
def pyStrip (s : String) : String :=
  String.mk (((s.data.dropWhile pyIsSpace).reverse.dropWhile pyIsSpace).reverse)

/-- Model of Python `str.replace(' ', '-')`. -/
def pyReplaceSpaceHyphen (s : String) : String :=
  String.mk (s.data.map (fun c => if c = ' ' then '-' else c))

/-! ## UTF-8 encoding (Python `str.encode()`) -/

/-- UTF-8 bytes of one code point. -/
def utf8EncodeChar (c : Char) : List Nat :=
  let n := c.toNat
  if n < 0x80 then [n]
  else if n < 0x800 then [0xC0 + n / 64, 0x80 + n % 64]
  else if n < 0x10000 then
    [0xE0 + n / 4096, 0x80 + (n / 64) % 64, 0x80 + n % 64]
  else
    [0xF0 + n / 262144, 0x80 + (n / 4096) % 64, 0x80 + (n / 64) % 64, 0x80 + n % 64]

/-- UTF-8 bytes of a string, modelling Python `s.encode()`. -/
def utf8Encode (s : String) : List Nat :=
  (s.data.map utf8EncodeChar).flatten

/-! ## SHA-256 (model of `hashlib.sha256(...).hexdigest()`)

A faithful FIPS 180-4 implementation over `Nat`, all word arithmetic reduced
modulo `2 ^ 32`. -/

/-- Right-rotation of a 32-bit word (input assumed below `2 ^ 32`). -/
def rotr32 (r x : Nat) : Nat :=
  x / 2 ^ r + x % 2 ^ r * 2 ^ (32 - r)

/-- SHA-256 big sigma 0. -/
def bsig0 (x : Nat) : Nat := rotr32 2 x ^^^ rotr32 13 x ^^^ rotr32 22 x

/-- SHA-256 big sigma 1. -/
def bsig1 (x : Nat) : Nat := rotr32 6 x ^^^ rotr32 11 x ^^^ rotr32 25 x

/-- SHA-256 small sigma 0. -/
def ssig0 (x : Nat) : Nat := rotr32 7 x ^^^ rotr32 18 x ^^^ x / 2 ^ 3

/-- SHA-256 small sigma 1. -/
def ssig1 (x : Nat) : Nat := rotr32 17 x ^^^ rotr32 19 x ^^^ x / 2 ^ 10

/-- The 64 SHA-256 round constants (FIPS 180-4, in decimal; the hex value
of each group is noted alongside). -/
def sha256K : List Nat :=
  [1116352408, 1899447441, 3049323471, 3921009573,  -- 428a2f98 71374491 b5c0fbcf e9b5dba5
   961987163, 1508970993, 2453635748, 2870763221,  -- 3956c25b 59f111f1 923f82a4 ab1c5ed5
   3624381080, 310598401, 607225278, 1426881987,  -- d807aa98 12835b01 243185be 550c7dc3
   1925078388, 2162078206, 2614888103, 3248222580,  -- 72be5d74 80deb1fe 9bdc06a7 c19bf174
   3835390401, 4022224774, 264347078, 604807628,  -- e49b69c1 efbe4786 0fc19dc6 240ca1cc
   770255983, 1249150122, 1555081692, 1996064986,  -- 2de92c6f 4a7484aa 5cb0a9dc 76f988da
   2554220882, 2821834349, 2952996808, 3210313671,  -- 983e5152 a831c66d b00327c8 bf597fc7
   3336571891, 3584528711, 113926993, 338241895,  -- c6e00bf3 d5a79147 06ca6351 14292967
   666307205, 773529912, 1294757372, 1396182291,  -- 27b70a85 2e1b2138 4d2c6dfc 53380d13
   1695183700, 1986661051, 2177026350, 2456956037,  -- 650a7354 766a0abb 81c2c92e 92722c85
   2730485921, 2820302411, 3259730800, 3345764771,  -- a2bfe8a1 a81a664b c24b8b70 c76c51a3
   3516065817, 3600352804, 4094571909, 275423344,  -- d192e819 d6990624 f40e3585 106aa070
   430227734, 506948616, 659060556, 883997877,  -- 19a4c116 1e376c08 2748774c 34b0bcb5
   958139571, 1322822218, 1537002063, 1747873779,  -- 391c0cb3 4ed8aa4a 5b9cca4f 682e6ff3
   1955562222, 2024104815, 2227730452, 2361852424,  -- 748f82ee 78a5636f 84c87814 8cc70208
   2428436474, 2756734187, 3204031479, 3329325298]  -- 90befffa a4506ceb bef9a3f7 c67178f2

/-- The eight 32-bit working variables of SHA-256. -/
structure Sha256State where
  a : Nat
  b : Nat
  c : Nat
  d : Nat
  e : Nat
  f : Nat
  g : Nat
  h : Nat
deriving DecidableEq

/-- The SHA-256 initial hash value. -/
def sha256Init : Sha256State :=
  ⟨1779033703, 3144134277, 1013904242, 2773480762,
   1359893119, 2600822924, 528734635, 1541459225⟩

/-- Pad a byte message per SHA-256: append `0x80`, zeros, then the bit length
as eight big-endian bytes, to a multiple of 64 bytes. -/
def sha256Pad (msg : List Nat) : List Nat :=
  let L := msg.length
  let k := (64 - (L + 9) % 64) % 64
  msg ++ 0x80 :: List.replicate k 0 ++
    [8 * L / 2 ^ 56 % 256, 8 * L / 2 ^ 48 % 256, 8 * L / 2 ^ 40 % 256,
     8 * L / 2 ^ 32 % 256, 8 * L / 2 ^ 24 % 256, 8 * L / 2 ^ 16 % 256,
     8 * L / 2 ^ 8 % 256, 8 * L % 256]

/-- Split a byte list into 64-byte chunks. -/
def chunksOf64 (l : List Nat) : List (List Nat) :=
  if h : l = [] then []
  else l.take 64 :: chunksOf64 (l.drop 64)
termination_by l.length
decreasing_by
  simp only [List.length_drop]
  have : 0 < l.length := List.length_pos.mpr h
  omega

/-- The first 16 message-schedule words of a 64-byte chunk (big-endian). -/
def wordsOfChunk (c : List Nat) : List Nat :=
  (List.range 16).map fun j =>
    c.getD (4 * j) 0 * 2 ^ 24 + c.getD (4 * j + 1) 0 * 2 ^ 16 +
      c.getD (4 * j + 2) 0 * 2 ^ 8 + c.getD (4 * j + 3) 0

/-- Extend the message schedule by `n` further words. -/
def extendW : Nat → List Nat → List Nat
  | 0, w => w
  | n + 1, w =>
    let i := w.length
    extendW n (w ++ [(w.getD (i - 16) 0 + ssig0 (w.getD (i - 15) 0) +
      w.getD (i - 7) 0 + ssig1 (w.getD (i - 2) 0)) % 2 ^ 32])

/-- The full 64-word message schedule of a chunk. -/
def scheduleOfChunk (c : List Nat) : List Nat :=
  extendW 48 (wordsOfChunk c)

/-- One SHA-256 compression round; `kw` is the pair of round constant and
schedule word. -/
def sha256Round (st : Sha256State) (kw : Nat × Nat) : Sha256State :=
  let s1 := bsig1 st.e
  let ch := (st.e &&& st.f) ^^^ ((2 ^ 32 - 1 - st.e) &&& st.g)
  let temp1 := (st.h + s1 + ch + kw.1 + kw.2) % 2 ^ 32
  let s0 := bsig0 st.a
  let maj := (st.a &&& st.b) ^^^ (st.a &&& st.c) ^^^ (st.b &&& st.c)
  let temp2 := (s0 + maj) % 2 ^ 32
  ⟨(temp1 + temp2) % 2 ^ 32, st.a, st.b, st.c,
   (st.d + temp1) % 2 ^ 32, st.e, st.f, st.g⟩

/-- Compress one 64-byte chunk into the running hash state. -/
def compressChunk (st : Sha256State) (c : List Nat) : Sha256State :=
  let w := scheduleOfChunk c
  let r := (sha256K.zip w).foldl sha256Round st
  ⟨(st.a + r.a) % 2 ^ 32, (st.b + r.b) % 2 ^ 32, (st.c + r.c) % 2 ^ 32,
   (st.d + r.d) % 2 ^ 32, (st.e + r.e) % 2 ^ 32, (st.f + r.f) % 2 ^ 32,
   (st.g + r.g) % 2 ^ 32, (st.h + r.h) % 2 ^ 32⟩

/-- The final SHA-256 state of a byte message. -/
def sha256Digest (msg : List Nat) : Sha256State :=
  (chunksOf64 (sha256Pad msg)).foldl compressChunk sha256Init

/-- Hex digit character for a value below 16. -/
def hexDigit (n : Nat) : Char :=
  if n < 10 then Char.ofNat (n + 48) else Char.ofNat (n + 87)

/-- The eight lowercase hex digits of a 32-bit word, most significant first. -/
def toHex8 (x : Nat) : List Char :=
  [hexDigit (x / 16 ^ 7 % 16), hexDigit (x / 16 ^ 6 % 16),
   hexDigit (x / 16 ^ 5 % 16), hexDigit (x / 16 ^ 4 % 16),
   hexDigit (x / 16 ^ 3 % 16), hexDigit (x / 16 ^ 2 % 16),
   hexDigit (x / 16 % 16), hexDigit (x % 16)]

/-- The 64 hex characters of a final SHA-256 state. -/
def stateHex (st : Sha256State) : List Char :=
  toHex8 st.a ++ toHex8 st.b ++ toHex8 st.c ++ toHex8 st.d ++
    toHex8 st.e ++ toHex8 st.f ++ toHex8 st.g ++ toHex8 st.h

/-- SHA-256 hex digest of a byte message. -/
def sha256Hex (msg : List Nat) : String :=
  String.mk (stateHex (sha256Digest msg))

/-- Model of Python `hashlib.sha256(s.encode()).hexdigest()`. -/
def sha256HexOfString (s : String) : String :=
  sha256Hex (utf8Encode s)

/-! ## Deduplication utilities (`app/utils/dedupe.py`) -/

/-- Embedding of `generate_dedupe_key` from `app/utils/dedupe.py`: normalize
the URL by stripping trailing slashes and lower-casing, join with the source
type as `source_type::normalized_url`, and hash keys longer than 500
characters. -/
def generate_dedupe_key (source_type source_url : String) : String :=
  let normalized_url := pyLower (rstripSlash source_url)
  let key_string := source_type ++ "::" ++ normalized_url
  if key_string.length ≤ 500 then key_string
  else sha256HexOfString key_string

/-- A code snippet dictionary as produced by the extractors: the hash uses
only `language` and `code`; `context` is carried but never hashed. -/
structure CodeSnippet where
  language : String
  code : String
  context : String
deriving DecidableEq

/-- Embedding of `generate_content_hash` from `app/utils/dedupe.py`: join the
title, the body text and each snippet rendered as `language::code` with the
`|||` delimiter, then take the SHA-256 hex digest of the UTF-8 bytes.
The source `title or ""` / `body_text or ""` guards replace Python `None` by
the empty string; the typed embedding passes strings directly. -/
def generate_content_hash (title body_text : String)
    (code_snippets : List CodeSnippet) : String :=
  let content_parts := [title, body_text] ++
    code_snippets.map (fun s => s.language ++ "::" ++ s.code)
  let content_string := String.intercalate "|||" content_parts
  sha256HexOfString content_string

/-! ## Ingestion (`app/ingest/base.py`, `BaseConnector.ingest`)

The database session is modelled as a list of stored rows; `query(...).filter
(dedupe_key == ...).first()` is `List.find?`; the `setattr` loop of the update
branch copies exactly the fields `process_item` sets on a fresh
`KnowledgeItem` (everything except `id` and the SQLAlchemy-private
underscore attributes; in particular `found_at` and the `ai_*` columns of the
existing row are untouched). -/

/-- The fields `process_item` sets on a new `KnowledgeItem` (a representative
subset of the content/metadata columns, plus the two dedupe fields). -/
structure ProcessedItem where
  dedupe_key : String
  content_hash : String
  title : String
  body_text : String
  tags : List String
  author : Option String
deriving DecidableEq

/-- A stored `knowledge_items` row: the processed fields plus the primary key
and the columns ingestion never writes (`found_at`, AI shadow fields). -/
structure StoredItem where
  id : Nat
  dedupe_key : String
  content_hash : String
  title : String
  body_text : String
  tags : List String
  author : Option String
  found_at : Nat
  ai_summary : Option String
deriving DecidableEq

/-- A fresh row inserted by `db_session.add(item)`: `id` is assigned by the
database, `found_at` by its column default, the AI fields start null. -/
def newStored (id found_at : Nat) (it : ProcessedItem) : StoredItem :=
  { id := id, dedupe_key := it.dedupe_key, content_hash := it.content_hash,
    title := it.title, body_text := it.body_text, tags := it.tags,
    author := it.author, found_at := found_at, ai_summary := none }

/-- The `setattr` loop of the update branch: overwrite every field the new
item carries, keep `id` (and the columns the loop never touches). -/
def overwriteFields (ex : StoredItem) (it : ProcessedItem) : StoredItem :=
  { ex with
    dedupe_key := it.dedupe_key
    content_hash := it.content_hash
    title := it.title
    body_text := it.body_text
    tags := it.tags
    author := it.author }

/-- Replace the first row matching the key by applying `f` to it (the ORM
mutates the queried row in place). -/
def replaceFirst (db : List StoredItem) (key : String)
    (f : StoredItem → StoredItem) : List StoredItem :=
  match db with
  | [] => []
  | r :: rest =>
    if r.dedupe_key = key then f r :: rest
    else r :: replaceFirst rest key f

/-- The counters `BaseConnector.ingest` reports. -/
structure IngestStats where
  fetched : Nat
  processed : Nat
  stored : Nat
  indexed : Nat
  skipped : Nat
deriving DecidableEq

/-- Zero counters, as initialised at the top of `ingest`. -/
def IngestStats.init (fetched : Nat) : IngestStats :=
  ⟨fetched, 0, 0, 0, 0⟩

/-- One iteration of the ingest loop on an already-processed item: look up the
row with the same `dedupe_key`; insert when absent, skip when the content hash
is unchanged, otherwise overwrite the row in place.  Returns the new session
state, updated counters and the next fresh id. -/
def ingestItem (db : List StoredItem) (stats : IngestStats)
    (nextId now : Nat) (it : ProcessedItem) :
    List StoredItem × IngestStats × Nat :=
  let stats := { stats with processed := stats.processed + 1 }
  match db.find? (fun r => r.dedupe_key = it.dedupe_key) with
  | some existing =>
    if existing.content_hash = it.content_hash then
      (db, { stats with skipped := stats.skipped + 1 }, nextId)
    else
      (replaceFirst db it.dedupe_key (fun r => overwriteFields r it),
       { stats with stored := stats.stored + 1, indexed := stats.indexed + 1 },
       nextId)
  | none =>
    (db ++ [newStored nextId now it],
     { stats with stored := stats.stored + 1, indexed := stats.indexed + 1 },
     nextId + 1)

/-- The ingest loop over a list of processed items. -/
def ingestLoop (db : List StoredItem) (stats : IngestStats)
    (nextId now : Nat) (items : List ProcessedItem) :
    List StoredItem × IngestStats × Nat :=
  match items with
  | [] => (db, stats, nextId)
  | it :: rest =>
    let r := ingestItem db stats nextId now it
    ingestLoop r.1 r.2.1 r.2.2 now rest

/-- Embedding of `BaseConnector.ingest` on already-processed items: counters
start from zero with `fetched` set to the item count. -/
def ingest (db : List StoredItem) (nextId now : Nat)
    (items : List ProcessedItem) : List StoredItem × IngestStats × Nat :=
  ingestLoop db (IngestStats.init items.length) nextId now items

/-! ## AI rate limiter (`app/ai/rate_limit.py`, `AIRateLimiter.acquire`)

Timestamps are `Rat`.  `acquire` runs under `async with self.lock`; the retry
after the sleep is `return await self.acquire()`, a recursive call issued
while the outer frame still holds the (non-reentrant) `asyncio.Lock`, so the
nested `async with self.lock` suspends until a release that can never happen.
The embedding makes the executing task explicit: `lockHeld` says whether the
calling frame already holds the limiter lock, `fuel` bounds the recursion
depth inspected, and `none` means the call does not complete within any
inspected depth (here: blocks forever on the lock).  On completion it returns
the recorded timestamp list and the time at which the call returned. -/

def acquireRun (maxRequests : Nat) (windowSeconds : Rat) :
    Nat → Bool → List Rat → Rat → Option (List Rat × Rat)
  | _, true, _, _ => none
  | fuel, false, requests, now =>
    let windowStart := now - windowSeconds
    let requests := requests.filter (fun t => windowStart < t)
    if requests.length < maxRequests then
      some (requests ++ [now], now)
    else
      match requests with
      | [] => some (requests ++ [now], now)
      | t0 :: ts =>
        let oldest := ts.foldl min t0
        let waitSeconds := max 0 (oldest + windowSeconds - now)
        if 0 < waitSeconds then
          match fuel with
          | 0 => none
          | fuel + 1 => acquireRun maxRequests windowSeconds fuel true requests (now + waitSeconds)
        else
          some (requests ++ [now], now)

/-! ## Search query construction (`app/api/search.py`, `build_search_query`)

The Elasticsearch request body is modelled as a JSON tree whose objects keep
Python dict insertion order. -/

/-- A JSON value; numbers are rationals. -/
inductive Json where
  | str : String → Json
  | num : Rat → Json
  | arr : List Json → Json
  | obj : List (String × Json) → Json

/-- Look up a key in a JSON object (first occurrence). -/
def Json.lookup (j : Json) (key : String) : Option Json :=
  match j with
  | .obj fields =>
    match fields.find? (fun kv => kv.1 = key) with
    | some kv => some kv.2
    | none => none
  | _ => none

/-- Python truthiness of an optional string argument (`if q:`). -/
def truthyStr (q : Option String) : Bool :=
  match q with
  | none => false
  | some s => s ≠ ""

/-- Python truthiness of an optional list argument (`if tags:`,
`if query_embedding:`). -/
def truthyList {α : Type} (l : Option (List α)) : Bool :=
  match l with
  | none => false
  | some xs => !xs.isEmpty

/-- The `script_score` vector-similarity clause built by
`build_search_query`. -/
def vectorQuery (emb : List Rat) : Json :=
  .obj [("script_score", .obj
    [("query", .obj [("match_all", .obj [])]),
     ("script", .obj
       [("source", .str "cosineSimilarity(params.query_vector, \x27embedding\x27) + 1.0"),
        ("params", .obj [("query_vector", .arr (emb.map Json.num))])])])]

/-- The `multi_match` keyword clause built by `build_search_query`. -/
def keywordQuery (q : String) : Json :=
  .obj [("multi_match", .obj
    [("query", .str q),
     ("fields", .arr [.str "title^3", .str "title.autocomplete^2",
       .str "body_text", .str "code_snippets.code"]),
     ("type", .str "best_fields"),
     ("fuzziness", .str "AUTO")])]

/-- The `highlight` section added when a text query is present. -/
def highlightSection : Json :=
  .obj [("fields", .obj
    [("title", .obj []),
     ("body_text", .obj [("fragment_size", .num 150), ("number_of_fragments", .num 2)]),
     ("code_snippets.code", .obj [("fragment_size", .num 200), ("number_of_fragments", .num 1)])])]

/-- The `must` clause list accumulated by `build_search_query`: the vector
clause (semantic-only mode), then the keyword clause or `match_all`. -/
def mustClauses (q : Option String) (semantic hybrid : Bool)
    (query_embedding : Option (List Rat)) : List Json :=
  (if (semantic || hybrid) && truthyList query_embedding && (semantic && !hybrid) then
    [vectorQuery (query_embedding.getD [])]
  else []) ++
  (if truthyStr q then
    if semantic && !hybrid then []
    else if hybrid then []
    else [keywordQuery (q.getD "")]
  else if !semantic then [.obj [("match_all", .obj [])]]
  else [])

/-- The `should` clause list accumulated by `build_search_query`: the vector
clause then the keyword clause, both only in hybrid mode. -/
def shouldClauses (q : Option String) (semantic hybrid : Bool)
    (query_embedding : Option (List Rat)) : List Json :=
  (if (semantic || hybrid) && truthyList query_embedding && !(semantic && !hybrid) && hybrid then
    [vectorQuery (query_embedding.getD [])]
  else []) ++
  (if truthyStr q && !(semantic && !hybrid) && hybrid then
    [keywordQuery (q.getD "")]
  else [])

/-- The filter clause list of `build_search_query`, in source order. -/
def filterClauses (source_type primary_language framework : Option String)
    (tags : Option (List String)) (from_date : Option String) : List Json :=
  (if truthyStr source_type then
    [.obj [("term", .obj [("source_type", .str (source_type.getD ""))])]] else []) ++
  (if truthyStr primary_language then
    [.obj [("term", .obj [("primary_language", .str (pyLower (primary_language.getD "")))])]] else []) ++
  (if truthyStr framework then
    [.obj [("term", .obj [("framework", .str (pyLower (framework.getD "")))])]] else []) ++
  (if truthyList tags then
    [.obj [("terms", .obj [("tags", .arr ((tags.getD []).map Json.str))])]] else []) ++
  (if truthyStr from_date then
    [.obj [("range", .obj [("published_at", .obj [("gte", .str (from_date.getD ""))])])]] else [])

/-- The fields of the `bool` query object, in insertion order: `must`,
`should` with `minimum_should_match`, `filter` — each only when non-empty. -/
def boolFields (must_clauses should_clauses filter_clauses : List Json)
    (hybrid : Bool) : List (String × Json) :=
  (if !must_clauses.isEmpty then [("must", Json.arr must_clauses)] else []) ++
  (if !should_clauses.isEmpty then
    [("should", Json.arr should_clauses),
     ("minimum_should_match", Json.num (if hybrid then 1 else 0))] else []) ++
  (if !filter_clauses.isEmpty then [("filter", Json.arr filter_clauses)] else [])

/-- Embedding of `build_search_query`: accumulate must/should/filter clauses
exactly as the source control flow does, then assemble the request body. -/
def build_search_query (q source_type primary_language framework : Option String)
    (tags : Option (List String)) (from_date : Option String)
    (semantic hybrid : Bool) (query_embedding : Option (List Rat))
    (page size : Int) : Json :=
  .obj ([("query", .obj [("bool", .obj (boolFields
      (mustClauses q semantic hybrid query_embedding)
      (shouldClauses q semantic hybrid query_embedding)
      (filterClauses source_type primary_language framework tags from_date)
      hybrid))]),
    ("from", .num (Rat.ofInt ((page - 1) * size))),
    ("size", .num (Rat.ofInt size)),
    ("sort", .arr [.obj [("published_at", .obj [("order", .str "desc"), ("missing", .str "_last")])],
      .str "_score"])] ++
    (if truthyStr q then [("highlight", highlightSection)] else []))

/-! ## AI response schemas (`app/ai/schemas.py`)

The pydantic models are embedded as validators over already-decoded JSON
data: the typed field values are given, the validator checks the declared
constraints and applies the `tags` normalizer, returning `none` on a
`ValidationError`. -/

/-- Decoded fields of a `CodeSnippetEnrichment` payload. -/
structure SnippetEnrichment where
  intent : String
  dependencies : List String
  pitfalls : List String
deriving DecidableEq

/-- Decoded fields of a `KnowledgeItemEnrichment` payload, before
validation. -/
structure RawEnrichment where
  summary : String
  tags : List String
  primary_language : Option String
  framework : Option String
  quality_score : Rat
  code_snippets : List SnippetEnrichment
deriving DecidableEq

/-- A validated `KnowledgeItemEnrichment` (tags already normalized). -/
structure Enrichment where
  summary : String
  tags : List String
  primary_language : Option String
  framework : Option String
  quality_score : Rat
  code_snippets : List SnippetEnrichment
deriving DecidableEq

/-- The `validate_tags` normalizer of `KnowledgeItemEnrichment`:
`[tag.lower().strip().replace(' ', '-') for tag in v if tag.strip()]`. -/
def normalizeTags (tags : List String) : List String :=
  (tags.filter (fun tag => pyStrip tag ≠ "")).map
    (fun tag => pyReplaceSpaceHyphen (pyStrip (pyLower tag)))

/-- Embedding of `KnowledgeItemEnrichment` validation: field constraints
(`summary` max length 500, `tags` at most 15 items, `quality_score` in
`[0, 1]`) are checked on the input values, then the `tags` validator
normalizes the accepted list. -/
def validateEnrichment (r : RawEnrichment) : Option Enrichment :=
  if r.summary.length ≤ 500 ∧ r.tags.length ≤ 15 ∧
      0 ≤ r.quality_score ∧ r.quality_score ≤ 1 then
    some ⟨r.summary, normalizeTags r.tags, r.primary_language, r.framework,
      r.quality_score, r.code_snippets⟩
  else none

/-- Decoded fields of an `AskResponse` payload. -/
structure RawAskResponse where
  answer : String
  confidence : Rat
deriving DecidableEq

/-- Embedding of `AskResponse` validation: `confidence` must lie in
`[0, 1]`. -/
def validateAskResponse (r : RawAskResponse) : Option RawAskResponse :=
  if 0 ≤ r.confidence ∧ r.confidence ≤ 1 then some r else none

/-! ## Code-fence stripping shared by `enrich.py` and `ask.py` -/

/-- Split on newline characters, modelling Python `str.split('\n')`. -/
def splitOnNewline (s : String) : List String :=
  (s.data.splitOn '\n').map String.mk

/-- Embedding of the response clean-up in `enrich_knowledge_item` and
`ask_question`: strip the text, and if it starts with a code fence, drop
every line whose stripped form starts with three backticks, re-joining with
newlines. -/
def stripFences (responseText : String) : String :=
  let t := pyStrip responseText
  if t.startsWith "```" then
    String.intercalate "\n"
      ((splitOnNewline t).filter (fun l => !(pyStrip l).startsWith "```"))
  else t

/-! ## Enrichment task (`app/tasks/enrich.py`, `enrich_knowledge_item`)

External effects are explicit inputs: the database row looked up by id, the
availability of the configured provider, the outcome of the rate-limited
`generate_text` call (an exception message or the raw response text), and
the outcome of `json.loads` on the cleaned response (`none` models a
`JSONDecodeError`, otherwise the decoded payload fields).  The validated
schema step is `validateEnrichment` above. -/

/-- A `code_snippets` JSON entry on a stored row: the extractor fields plus
the enrichment fields that are absent until enrichment succeeds. -/
structure StoredSnippet where
  language : String
  code : String
  context : String
  intent : Option String
  dependencies : Option (List String)
  pitfalls : Option (List String)
deriving DecidableEq

/-- The columns of a row that `enrich_knowledge_item` reads or writes. -/
structure EnrichedItem where
  title : String
  body_text : String
  code_snippets : List StoredSnippet
  ai_summary : Option String
  ai_tags : Option (List String)
  ai_primary_language : Option String
  ai_framework : Option String
  ai_quality_score : Option Rat
  ai_extracted_at : Option Nat
deriving DecidableEq

/-- How one invocation of the task ends. -/
inductive EnrichOutcome where
  | itemNotFound
  | providerNotConfigured
  | retryAfter (countdown : Nat)
  | parseFailure
  | success
deriving DecidableEq

/-- The Celery `max_retries` bound of `enrich_knowledge_item`. -/
def enrichMaxRetries : Nat := 3

/-- The snippet merge of the success path: enrichment entries are matched to
the stored snippets by position; snippets beyond the enrichment list are
kept as they are. -/
def mergeSnippets (snippets : List StoredSnippet)
    (es : List SnippetEnrichment) : List StoredSnippet :=
  snippets.enum.map fun si =>
    match es[si.1]? with
    | some e =>
      { si.2 with
        intent := some e.intent
        dependencies := some e.dependencies
        pitfalls := some e.pitfalls }
    | none => si.2

/-- Embedding of `enrich_knowledge_item`: returns the outcome together with
the row as left in the database. -/
def enrich_knowledge_item (item : Option EnrichedItem)
    (providerAvailable : Bool) (callResult : Except String String)
    (jsonLoads : String → Option RawEnrichment) (now : Nat) :
    EnrichOutcome × Option EnrichedItem :=
  match item with
  | none => (.itemNotFound, none)
  | some item =>
    if !providerAvailable then (.providerNotConfigured, some item)
    else
      match callResult with
      | .error _ => (.retryAfter 60, some item)
      | .ok responseText =>
        match jsonLoads (stripFences responseText) with
        | none => (.parseFailure, some item)
        | some raw =>
          match validateEnrichment raw with
          | none => (.parseFailure, some item)
          | some e =>
            (.success, some
              { item with
                ai_summary := some e.summary
                ai_tags := some e.tags
                ai_primary_language := e.primary_language
                ai_framework := e.framework
                ai_quality_score := some e.quality_score
                ai_extracted_at := some now
                code_snippets := mergeSnippets item.code_snippets e.code_snippets })

/-! ## RAG ask flow (`app/api/ask.py`, `ask_question`)

Retrieval and the provider are explicit inputs: `retrieve semantic hybrid
embedding` stands for `search_knowledge_items(...)` and returns the item
dictionaries of the search response; `genResult` is the outcome of the
rate-limited `generate_text` call; `jsonLoads` models `json.loads` on the
cleaned answer text.  `providerCalled` records whether the generative
provider was invoked. -/

/-- The `_source` fields of a retrieved item that `ask_question` reads
(each through `.get` with a default). -/
structure RetrievedItem where
  id : Option String
  title : Option String
  source_url : Option String
  source_name : Option String
deriving DecidableEq

/-- One entry of the citations list. -/
structure Citation where
  number : Nat
  title : String
  source_url : String
  source_name : String
  id : String
deriving DecidableEq

/-- The citation list: item `N` of the retrieval becomes citation number
`N` (1-based), with defaulted fields. -/
def buildCitations (items : List RetrievedItem) : List Citation :=
  items.enum.map fun it =>
    { number := it.1 + 1
      title := it.2.title.getD "Untitled"
      source_url := it.2.source_url.getD ""
      source_name := it.2.source_name.getD ""
      id := it.2.id.getD "" }

/-- The dictionary `ask_question` returns. -/
structure AskResult where
  answer : String
  confidence : Rat
  citations : List Citation
  matched_items : List RetrievedItem
  providerCalled : Bool
deriving DecidableEq

/-- The fixed response returned when retrieval finds nothing. -/
def noResultsAnswer : String :=
  "I couldn\x27t find any relevant information to answer your question. Please try rephrasing or adjusting your search filters."

/-- The fixed fallback answer substituted on a parse or validation
failure. -/
def fallbackAnswer : String :=
  "I found relevant information, but encountered an error formatting the response."

/-- The `semantic`/`query_embedding` adjustment at the top of
`ask_question`: on embedding failure, degrade to keyword-only retrieval;
the first component is passed as both `semantic` and `hybrid` to
`search_knowledge_items` (`hybrid=True if semantic else False`). -/
def askSearchArgs (semantic : Bool)
    (embedResult : Except String (List Rat)) : Bool × Option (List Rat) :=
  if semantic then
    match embedResult with
    | .ok v => (true, some v)
    | .error _ => (false, none)
  else (semantic, none)

/-- Embedding of `ask_question`: provider check, optional question
embedding with keyword fallback, retrieval, the zero-result short
circuit, answer generation and the validated-or-fallback parse.
`Except.error` models an exception propagating to the caller. -/
def ask_question (providerAvailable : Bool) (semantic : Bool)
    (embedResult : Except String (List Rat))
    (retrieve : Bool → Bool → Option (List Rat) → List RetrievedItem)
    (genResult : Except String String)
    (jsonLoads : String → Option RawAskResponse)
    (top_k : Nat) : Except String AskResult :=
  if !providerAvailable then
    .error "AI provider not configured. Please set OPENAI_API_KEY or ANTHROPIC_API_KEY."
  else
    let sq := askSearchArgs semantic embedResult
    let items := retrieve sq.1 sq.1 sq.2
    if items.isEmpty then
      .ok { answer := noResultsAnswer, confidence := 0, citations := [],
            matched_items := [], providerCalled := false }
    else
      match genResult with
      | .error e => .error e
      | .ok responseText =>
        let answerObj : RawAskResponse :=
          match jsonLoads (stripFences responseText) with
          | some raw =>
            match validateAskResponse raw with
            | some a => a
            | none => ⟨fallbackAnswer, 1 / 2⟩
          | none => ⟨fallbackAnswer, 1 / 2⟩
        .ok { answer := answerObj.answer, confidence := answerObj.confidence,
              citations := buildCitations items,
              matched_items := items.take top_k, providerCalled := true }

/-! ## Helper lemmas -/

/-- The hex rendering of a word is 8 characters. -/
theorem toHex8_length (x : Nat) : (toHex8 x).length = 8 := rfl

/-- A SHA-256 hex digest has exactly 64 characters. -/
theorem sha256Hex_length (msg : List Nat) : (sha256Hex msg).length = 64 := rfl

/-- The string form of the digest also has 64 characters. -/
theorem sha256HexOfString_length (s : String) :
    (sha256HexOfString s).length = 64 := rfl

/-- Converting a valid code point back from `Char.ofNat` is the identity on
the code point. -/
theorem toNat_ofNat_valid {n : Nat} (h : n.isValidChar) :
    (Char.ofNat n).toNat = n := by
  rw [Char.ofNat, dif_pos h]
  rfl

/-- Lower-casing maps `'/'` and only `'/'` to `'/'`. -/
theorem toLower_eq_slash_iff (c : Char) : Char.toLower c = '/' ↔ c = '/' := by
  constructor
  · intro hl
    by_cases hc : c.toNat ≥ 65 ∧ c.toNat ≤ 90
    · exfalso
      have h2 : Char.toLower c = Char.ofNat (c.toNat + 32) := by
        simp only [Char.toLower]
        rw [if_pos hc]
      have hv : (c.toNat + 32).isValidChar := Or.inl (by omega)
      have h3 := congrArg Char.toNat (h2 ▸ hl)
      rw [toNat_ofNat_valid hv] at h3
      have : ('/').toNat = 47 := rfl
      omega
    · have h2 : Char.toLower c = c := by
        simp only [Char.toLower]
        rw [if_neg hc]
      rwa [h2] at hl
  · intro h
    subst h
    decide

/-- Dropping leading slashes commutes with character-wise lower-casing. -/
theorem dropWhile_slash_map_toLower (l : List Char) :
    (l.map Char.toLower).dropWhile (fun c => c = '/') =
      (l.dropWhile (fun c => c = '/')).map Char.toLower := by
  induction l with
  | nil => rfl
  | cons c t ih =>
    by_cases hc : c = '/'
    · subst hc
      have h1 : Char.toLower '/' = '/' := by decide
      simp [List.dropWhile_cons, h1, ih]
    · have h1 : Char.toLower c ≠ '/' := fun h => hc ((toLower_eq_slash_iff c).mp h)
      simp [List.dropWhile_cons, hc, h1]

/-- Trailing-slash stripping commutes with character-wise lower-casing. -/
theorem rstripSlashData_map_toLower (l : List Char) :
    rstripSlashData (l.map Char.toLower) = (rstripSlashData l).map Char.toLower := by
  unfold rstripSlashData
  rw [← List.map_reverse, dropWhile_slash_map_toLower, List.map_reverse]

/-- Appended trailing slashes are removed by the stripper. -/
theorem rstripSlashData_append_replicate (x : List Char) (n : Nat) :
    rstripSlashData (x ++ List.replicate n '/') = rstripSlashData x := by
  unfold rstripSlashData
  rw [List.reverse_append, List.reverse_replicate]
  congr 1
  induction n with
  | zero => simp
  | succ m ih => simpa [List.replicate_succ, List.dropWhile_cons] using ih

/-! ## C1: dedupe key format, case- and trailing-slash-insensitivity -/

/-- C1: `generate_dedupe_key` returns `source_type::normalized_url` with the
URL stripped of trailing slashes and lower-cased, falling back to the SHA-256
hex digest when the key exceeds 500 characters; consequently two URLs that
differ only by trailing slashes or letter case produce the same key. -/
theorem generate_dedupe_key_spec (source_type u1 u2 : String)
    (x1 x2 : List Char) (n1 n2 : Nat)
    (h1 : u1.data = x1 ++ List.replicate n1 '/')
    (h2 : u2.data = x2 ++ List.replicate n2 '/')
    (hcase : x1.map Char.toLower = x2.map Char.toLower) :
    (generate_dedupe_key source_type u1 =
      (if (source_type ++ "::" ++ pyLower (rstripSlash u1)).length ≤ 500 then
        source_type ++ "::" ++ pyLower (rstripSlash u1)
      else sha256HexOfString (source_type ++ "::" ++ pyLower (rstripSlash u1)))) ∧
    generate_dedupe_key source_type u1 = generate_dedupe_key source_type u2 := by
  have key : pyLower (rstripSlash u1) = pyLower (rstripSlash u2) := by
    unfold pyLower rstripSlash
    show String.mk ((rstripSlashData u1.data).map Char.toLower) =
      String.mk ((rstripSlashData u2.data).map Char.toLower)
    rw [h1, h2, rstripSlashData_append_replicate, rstripSlashData_append_replicate,
      ← rstripSlashData_map_toLower, ← rstripSlashData_map_toLower, hcase]
  constructor
  · rfl
  · unfold generate_dedupe_key
    rw [key]

/-- C1 witness: the concrete RSS scenario of the spec, with a trailing slash
and different letter case, resolves to the one key `rss::http://x.com/a`. -/
theorem generate_dedupe_key_spec_witness :
    generate_dedupe_key "rss" "http://X.com/A/" = generate_dedupe_key "rss" "http://x.com/a" ∧
    generate_dedupe_key "rss" "http://x.com/a" = "rss::http://x.com/a" := by
  constructor
  · exact (generate_dedupe_key_spec "rss" "http://X.com/A/" "http://x.com/a"
      "http://X.com/A".data "http://x.com/a".data 1 0 rfl (by simp) (by decide)).2
  · rfl

/-! ## C10: the dedupe key always fits the 500-character column -/

/-- C10: for every source type and URL the generated dedupe key has at most
500 characters — either the raw key when it is short enough, or the
64-character SHA-256 hex digest — so it fits the `String(500)` column of
`knowledge_items.dedupe_key`. -/
theorem generate_dedupe_key_length_le (source_type source_url : String) :
    (generate_dedupe_key source_type source_url).length ≤ 500 := by
  unfold generate_dedupe_key
  dsimp only
  split
  · assumption
  · rw [sha256HexOfString_length]
    omega

/-! ## C2: the content hash as a function of title, body and snippet pairs

`generate_content_hash` only ever sees `title`, `body_text` and the
`(language, code)` pair of each snippet, so it is invariant under every other
input (tags, author, AI fields are not even parameters; a snippet's `context`
is ignored).  The converse direction of the claim fails: the `|||` join
delimiter can occur in content, so two inputs with different titles and
bodies can produce the same joined string and hence the same digest. -/

/-- C2 (amended): the content hash depends only on the title, the body text
and each snippet's `(language, code)` pair — snippet lists that agree on
those pairs hash identically, whatever their other fields hold. -/
theorem generate_content_hash_pure (title body_text : String)
    (s1 s2 : List CodeSnippet)
    (h : s1.map (fun s => (s.language, s.code)) = s2.map (fun s => (s.language, s.code))) :
    generate_content_hash title body_text s1 = generate_content_hash title body_text s2 := by
  have e : ∀ s : List CodeSnippet,
      s.map (fun x => x.language ++ "::" ++ x.code) =
        (s.map (fun x => (x.language, x.code))).map (fun p => p.1 ++ "::" ++ p.2) := by
    intro s
    rw [List.map_map]
    rfl
  unfold generate_content_hash
  rw [e s1, e s2, h]

/-- C2 witness: snippets differing only in `context` hash identically. -/
theorem generate_content_hash_pure_witness :
    generate_content_hash "t" "b" [⟨"python", "print(1)", "ctx one"⟩] =
      generate_content_hash "t" "b" [⟨"python", "print(1)", "ctx two"⟩] :=
  generate_content_hash_pure "t" "b" _ _ rfl

/-- C2 counterexample: the claim that the digest changes under any change to
`title` or `body_text` is false — the `|||` delimiter can be injected, so
`("a|||b", "c")` and `("a", "b|||c")` produce the same joined string and the
same digest although both the title and the body differ. -/
theorem generate_content_hash_collision :
    generate_content_hash "a|||b" "c" [] = generate_content_hash "a" "b|||c" [] ∧
    ("a|||b" : String) ≠ "a" ∧ ("c" : String) ≠ "b|||c" := by
  refine ⟨?_, by decide, by decide⟩
  show sha256HexOfString (String.intercalate "|||" (["a|||b", "c"] ++ [])) =
    sha256HexOfString (String.intercalate "|||" (["a", "b|||c"] ++ []))
  rfl

/-! ## C3: the ingest decision table -/

/-- A successful `find?` splits the list at the first hit. -/
theorem find?_eq_some_split {p : StoredItem → Bool} {db : List StoredItem}
    {ex : StoredItem} (h : db.find? p = some ex) :
    ∃ pre post, db = pre ++ ex :: post ∧ ∀ r ∈ pre, p r = false := by
  induction db with
  | nil => simp at h
  | cons d rest ih =>
    rw [List.find?_cons] at h
    split at h
    · cases h
      exact ⟨[], rest, rfl, by simp⟩
    · rename_i hpd
      obtain ⟨pre, post, hsplit, hpre⟩ := ih h
      refine ⟨d :: pre, post, by rw [hsplit]; rfl, ?_⟩
      intro r hr
      rcases List.mem_cons.mp hr with hr | hr
      · subst hr
        exact hpd
      · exact hpre r hr

/-- `replaceFirst` rewrites exactly the first row carrying the key. -/
theorem replaceFirst_append (pre post : List StoredItem) (ex : StoredItem)
    (key : String) (f : StoredItem → StoredItem)
    (hpre : ∀ r ∈ pre, ¬(r.dedupe_key = key)) (hex : ex.dedupe_key = key) :
    replaceFirst (pre ++ ex :: post) key f = pre ++ f ex :: post := by
  induction pre with
  | nil => simp [replaceFirst, hex]
  | cons d rest ih =>
    have hd : ¬(d.dedupe_key = key) := hpre d (by simp)
    show replaceFirst (d :: (rest ++ ex :: post)) key f = d :: (rest ++ f ex :: post)
    rw [replaceFirst.eq_2, if_neg hd, ih (fun r hr => hpre r (List.mem_cons_of_mem d hr))]

/-- C3: the decision table of `BaseConnector.ingest` for one processed item:
no matching `dedupe_key` → the item is inserted and counted as stored; a
match with equal `content_hash` → nothing is written and the item is counted
as skipped; a match with a different hash → the matched row alone is
overwritten in place with the new values, its `id` is preserved, and the
item is counted as stored. -/
theorem ingestItem_decision_table (db : List StoredItem) (stats : IngestStats)
    (nid now : Nat) (it : ProcessedItem) :
    (db.find? (fun r => r.dedupe_key = it.dedupe_key) = none →
      ingestItem db stats nid now it =
        (db ++ [newStored nid now it],
         { stats with processed := stats.processed + 1, stored := stats.stored + 1, indexed := stats.indexed + 1 },
         nid + 1)) ∧
    (∀ ex, db.find? (fun r => r.dedupe_key = it.dedupe_key) = some ex →
      ex.content_hash = it.content_hash →
      ingestItem db stats nid now it =
        (db,
         { stats with processed := stats.processed + 1, skipped := stats.skipped + 1 },
         nid)) ∧
    (∀ ex, db.find? (fun r => r.dedupe_key = it.dedupe_key) = some ex →
      ex.content_hash ≠ it.content_hash →
      ∃ pre post, db = pre ++ ex :: post ∧
        (∀ r ∈ pre, ¬(r.dedupe_key = it.dedupe_key)) ∧
        ingestItem db stats nid now it =
          (pre ++ overwriteFields ex it :: post,
           { stats with processed := stats.processed + 1, stored := stats.stored + 1, indexed := stats.indexed + 1 },
           nid) ∧
        (overwriteFields ex it).id = ex.id) := by
  refine ⟨?_, ?_, ?_⟩
  · intro hnone
    simp [ingestItem, hnone]
  · intro ex hfind hhash
    simp [ingestItem, hfind, hhash]
  · intro ex hfind hhash
    obtain ⟨pre, post, hsplit, hpre⟩ := find?_eq_some_split hfind
    have hpre' : ∀ r ∈ pre, ¬(r.dedupe_key = it.dedupe_key) := by
      intro r hr
      have := hpre r hr
      simpa using this
    have hex : ex.dedupe_key = it.dedupe_key := by
      have := List.find?_some hfind
      simpa using this
    refine ⟨pre, post, hsplit, hpre', ?_, rfl⟩
    simp only [ingestItem, hfind, if_neg hhash]
    rw [hsplit, replaceFirst_append pre post ex it.dedupe_key _ hpre' hex]

/-- C3 witness: the three rows of the decision table at concrete inputs — an
insert into an empty session, a skip on an unchanged row, and an in-place
overwrite (id preserved) on a changed row. -/
theorem ingestItem_decision_table_witness :
    (ingestItem [] (.init 1) 5 7 ⟨"k", "h", "t", "b", [], none⟩ =
      ([⟨5, "k", "h", "t", "b", [], none, 7, none⟩], ⟨1, 1, 1, 1, 0⟩, 6)) ∧
    (ingestItem [⟨5, "k", "h", "t", "b", [], none, 7, none⟩] (.init 1) 9 8
        ⟨"k", "h", "t2", "b2", [], none⟩ =
      ([⟨5, "k", "h", "t", "b", [], none, 7, none⟩], ⟨1, 1, 0, 0, 1⟩, 9)) ∧
    (ingestItem [⟨5, "k", "h", "t", "b", [], none, 7, some "ai"⟩] (.init 1) 9 8
        ⟨"k", "h2", "t2", "b2", [], none⟩ =
      ([⟨5, "k", "h2", "t2", "b2", [], none, 7, some "ai"⟩], ⟨1, 1, 1, 1, 0⟩, 9)) := by
  refine ⟨?_, ?_, ?_⟩
  · exact (ingestItem_decision_table [] (.init 1) 5 7 ⟨"k", "h", "t", "b", [], none⟩).1 rfl
  · exact (ingestItem_decision_table _ (.init 1) 9 8 _).2.1
      ⟨5, "k", "h", "t", "b", [], none, 7, none⟩ rfl rfl
  · obtain ⟨pre, post, hsplit, _, heq, _⟩ :=
      (ingestItem_decision_table [⟨5, "k", "h", "t", "b", [], none, 7, some "ai"⟩]
        (.init 1) 9 8 ⟨"k", "h2", "t2", "b2", [], none⟩).2.2
        ⟨5, "k", "h", "t", "b", [], none, 7, some "ai"⟩ rfl (by decide)
    cases pre with
    | nil =>
      simp only [List.nil_append] at hsplit heq
      injection hsplit with h1 h2
      cases h2
      exact heq
    | cons p ps =>
      exfalso
      simp only [List.cons_append] at hsplit
      injection hsplit with h1 h2
      exact absurd h2.symm (by simp)

/-! ## C4: idempotence of re-ingestion

Running `ingest` a second time over the same fetched items stores nothing
and skips everything — provided no two fetched items share a `dedupe_key`
with differing `content_hash` (otherwise the run keeps flip-flopping the
stored row, see the counterexample), and the session rows have unique keys
(the `unique=True` constraint of the `dedupe_key` column). -/

/-- A row matching the item's key and hash exists in the session. -/
def hasMatch (db : List StoredItem) (it : ProcessedItem) : Prop :=
  ∃ r ∈ db, r.dedupe_key = it.dedupe_key ∧ r.content_hash = it.content_hash

instance (db : List StoredItem) (it : ProcessedItem) : Decidable (hasMatch db it) := by
  unfold hasMatch
  infer_instance

/-- `replaceFirst` leaves every row with a different key in place. -/
theorem mem_replaceFirst_of_ne {r : StoredItem} {db : List StoredItem}
    {key : String} {f : StoredItem → StoredItem}
    (hr : r ∈ db) (hk : r.dedupe_key ≠ key) : r ∈ replaceFirst db key f := by
  induction db with
  | nil => cases hr
  | cons d rest ih =>
    rcases List.mem_cons.mp hr with hr | hr
    · subst hr
      rw [replaceFirst, if_neg hk]
      exact List.mem_cons_self r _
    · by_cases hd : d.dedupe_key = key
      · rw [replaceFirst, if_pos hd]
        exact List.mem_cons_of_mem _ hr
      · rw [replaceFirst, if_neg hd]
        exact List.mem_cons_of_mem _ (ih hr)

/-- The keys of the session rows. -/
def dbKeys (db : List StoredItem) : List String :=
  db.map (fun r => r.dedupe_key)

/-- `replaceFirst` with the overwrite of `ingestItem` does not change the
key sequence. -/
theorem dbKeys_replaceFirst (db : List StoredItem) (it : ProcessedItem) :
    dbKeys (replaceFirst db it.dedupe_key (fun r => overwriteFields r it)) = dbKeys db := by
  induction db with
  | nil => rfl
  | cons d rest ih =>
    by_cases hd : d.dedupe_key = it.dedupe_key
    · rw [replaceFirst, if_pos hd]
      simp [dbKeys, overwriteFields, hd]
    · rw [replaceFirst, if_neg hd]
      simp only [dbKeys, List.map_cons]
      rw [show (replaceFirst rest it.dedupe_key fun r => overwriteFields r it).map (fun r => r.dedupe_key) = dbKeys (replaceFirst rest it.dedupe_key fun r => overwriteFields r it) from rfl, ih]
      rfl

/-- One ingest step preserves key uniqueness of the session. -/
theorem ingestItem_keys_nodup (db : List StoredItem) (stats : IngestStats)
    (nid now : Nat) (it : ProcessedItem) (hnd : (dbKeys db).Nodup) :
    (dbKeys (ingestItem db stats nid now it).1).Nodup := by
  unfold ingestItem
  cases hfind : db.find? (fun r => r.dedupe_key = it.dedupe_key) with
  | none =>
    have habs : it.dedupe_key ∉ dbKeys db := by
      intro hmem
      obtain ⟨r, hr, hkey⟩ := List.mem_map.mp hmem
      have := List.find?_eq_none.mp hfind r hr
      simp [hkey] at this
    simp only [dbKeys, List.map_append]
    exact List.Nodup.append hnd (by simp [newStored]) (by
      intro a ha hb
      simp only [List.map_cons, List.map_nil, List.mem_singleton, newStored] at hb
      subst hb
      exact habs ha)
  | some ex =>
    by_cases hhash : ex.content_hash = it.content_hash
    · simpa [hhash] using hnd
    · simp only [if_neg hhash]
      rw [show dbKeys (replaceFirst db it.dedupe_key fun r => overwriteFields r it) = dbKeys db from dbKeys_replaceFirst db it]
      exact hnd

/-- After ingesting an item, the session has a matching row for it. -/
theorem ingestItem_self_match (db : List StoredItem) (stats : IngestStats)
    (nid now : Nat) (it : ProcessedItem) :
    hasMatch (ingestItem db stats nid now it).1 it := by
  unfold ingestItem
  cases hfind : db.find? (fun r => r.dedupe_key = it.dedupe_key) with
  | none =>
    exact ⟨newStored nid now it, by simp [newStored], rfl, rfl⟩
  | some ex =>
    have hex : ex.dedupe_key = it.dedupe_key := by
      have := List.find?_some hfind
      simpa using this
    by_cases hhash : ex.content_hash = it.content_hash
    · exact ⟨ex, by simpa [hhash] using List.mem_of_find?_eq_some hfind, hex, hhash⟩
    · simp only [if_neg hhash]
      obtain ⟨pre, post, hsplit, hpre⟩ := find?_eq_some_split hfind
      have hpre' : ∀ r ∈ pre, ¬(r.dedupe_key = it.dedupe_key) := by
        intro r hr
        have := hpre r hr
        simpa using this
      rw [hsplit, replaceFirst_append pre post ex it.dedupe_key _ hpre' hex]
      exact ⟨overwriteFields ex it, by simp, rfl, rfl⟩

/-- One ingest step of item `b` keeps a match for item `a`, provided `a` and
`b` agree on the hash whenever they share the key. -/
theorem ingestItem_match_preserved (db : List StoredItem) (stats : IngestStats)
    (nid now : Nat) (a b : ProcessedItem)
    (hab : a.dedupe_key = b.dedupe_key → a.content_hash = b.content_hash)
    (hm : hasMatch db a) : hasMatch (ingestItem db stats nid now b).1 a := by
  obtain ⟨r, hr, hkey, hhash⟩ := hm
  unfold ingestItem
  cases hfind : db.find? (fun q => q.dedupe_key = b.dedupe_key) with
  | none => exact ⟨r, List.mem_append_left _ hr, hkey, hhash⟩
  | some ex =>
    have hex : ex.dedupe_key = b.dedupe_key := by
      have := List.find?_some hfind
      simpa using this
    by_cases hh : ex.content_hash = b.content_hash
    · exact ⟨r, by simpa [hh] using hr, hkey, hhash⟩
    · simp only [if_neg hh]
      by_cases hrb : r.dedupe_key = b.dedupe_key
      · have hkab : a.dedupe_key = b.dedupe_key := hkey ▸ hrb
        have hhab : a.content_hash = b.content_hash := hab hkab
        obtain ⟨pre, post, hsplit, hpre⟩ := find?_eq_some_split hfind
        have hpre' : ∀ q ∈ pre, ¬(q.dedupe_key = b.dedupe_key) := by
          intro q hq
          have := hpre q hq
          simpa using this
        rw [hsplit, replaceFirst_append pre post ex b.dedupe_key _ hpre' hex]
        exact ⟨overwriteFields ex b, by simp, by rw [overwriteFields, hkab], by rw [overwriteFields, hhab]⟩
      · exact ⟨r, mem_replaceFirst_of_ne hr hrb, hkey, hhash⟩

/-- The ingest loop keeps an existing match for `a` through all items it
processes, under the same pairwise coherence condition. -/
theorem ingestLoop_match_preserved (items : List ProcessedItem)
    (db : List StoredItem) (stats : IngestStats) (nid now : Nat)
    (a : ProcessedItem)
    (hall : ∀ b ∈ items, a.dedupe_key = b.dedupe_key → a.content_hash = b.content_hash)
    (hm : hasMatch db a) :
    hasMatch (ingestLoop db stats nid now items).1 a := by
  induction items generalizing db stats nid with
  | nil => exact hm
  | cons b rest ih =>
    rw [ingestLoop]
    exact ih _ _ _ (fun c hc => hall c (List.mem_cons_of_mem b hc))
      (ingestItem_match_preserved db stats nid now a b (hall b (List.mem_cons_self b rest)) hm)

/-- After one full ingest run, every processed item has a matching row. -/
theorem ingestLoop_all_match (items : List ProcessedItem)
    (db : List StoredItem) (stats : IngestStats) (nid now : Nat)
    (hC : ∀ a ∈ items, ∀ b ∈ items,
      a.dedupe_key = b.dedupe_key → a.content_hash = b.content_hash) :
    ∀ a ∈ items, hasMatch (ingestLoop db stats nid now items).1 a := by
  induction items generalizing db stats nid with
  | nil => intro a ha; cases ha
  | cons b rest ih =>
    intro a ha
    rw [ingestLoop]
    rcases List.mem_cons.mp ha with ha | ha
    · subst ha
      exact ingestLoop_match_preserved rest _ _ _ _ a
        (fun c hc => hC a (List.mem_cons_self a rest) c (List.mem_cons_of_mem a hc))
        (ingestItem_self_match db stats nid now a)
    · exact ih _ _ _
        (fun x hx y hy => hC x (List.mem_cons_of_mem b hx) y (List.mem_cons_of_mem b hy))
        a ha

/-- The loop preserves key uniqueness. -/
theorem ingestLoop_keys_nodup (items : List ProcessedItem)
    (db : List StoredItem) (stats : IngestStats) (nid now : Nat)
    (hnd : (dbKeys db).Nodup) :
    (dbKeys (ingestLoop db stats nid now items).1).Nodup := by
  induction items generalizing db stats nid with
  | nil => exact hnd
  | cons b rest ih =>
    rw [ingestLoop]
    exact ih _ _ _ (ingestItem_keys_nodup db stats nid now b hnd)

/-- With unique keys, a matching row is exactly what `find?` returns. -/
theorem find?_of_hasMatch (db : List StoredItem) (it : ProcessedItem)
    (hnd : (dbKeys db).Nodup) (hm : hasMatch db it) :
    ∃ ex, db.find? (fun r => r.dedupe_key = it.dedupe_key) = some ex ∧
      ex.content_hash = it.content_hash := by
  induction db with
  | nil => obtain ⟨r, hr, -, -⟩ := hm; cases hr
  | cons d rest ih =>
    obtain ⟨r, hr, hkey, hhash⟩ := hm
    by_cases hd : d.dedupe_key = it.dedupe_key
    · refine ⟨d, by simp [List.find?_cons, hd], ?_⟩
      rcases List.mem_cons.mp hr with hr | hr
      · subst hr; exact hhash
      · exfalso
        have hdk : d.dedupe_key ∉ dbKeys rest := by
          have := hnd
          simp only [dbKeys, List.map_cons, List.nodup_cons] at this
          exact this.1
        exact hdk (List.mem_map.mpr ⟨r, hr, by rw [hkey, hd]⟩)
    · have hfc : (d :: rest).find? (fun r => r.dedupe_key = it.dedupe_key) =
          rest.find? (fun r => r.dedupe_key = it.dedupe_key) := by
        simp [List.find?_cons, hd]
      rw [hfc]
      have hrrest : r ∈ rest := by
        rcases List.mem_cons.mp hr with hr | hr
        · exfalso; exact hd (hr ▸ hkey)
        · exact hr
      exact ih (by
        have := hnd
        simp only [dbKeys, List.map_cons, List.nodup_cons] at this
        exact this.2) ⟨r, hrrest, hkey, hhash⟩

/-- When every item already has a matching row and keys are unique, the loop
writes nothing: the session is unchanged, nothing is stored, everything is
skipped. -/
theorem ingestLoop_all_skipped (items : List ProcessedItem)
    (db : List StoredItem) (stats : IngestStats) (nid now : Nat)
    (hnd : (dbKeys db).Nodup) (hall : ∀ a ∈ items, hasMatch db a) :
    (ingestLoop db stats nid now items).1 = db ∧
    (ingestLoop db stats nid now items).2.1.stored = stats.stored ∧
    (ingestLoop db stats nid now items).2.1.skipped = stats.skipped + items.length := by
  induction items generalizing stats with
  | nil => exact ⟨rfl, rfl, rfl⟩
  | cons b rest ih =>
    obtain ⟨ex, hfind, hhash⟩ := find?_of_hasMatch db b hnd (hall b (List.mem_cons_self b rest))
    have hstep : ingestItem db stats nid now b =
        (db, { stats with processed := stats.processed + 1, skipped := stats.skipped + 1 }, nid) :=
      (ingestItem_decision_table db stats nid now b).2.1 ex hfind hhash
    rw [ingestLoop, hstep]
    obtain ⟨h1, h2, h3⟩ := ih { stats with processed := stats.processed + 1, skipped := stats.skipped + 1 }
      (fun a ha => hall a (List.mem_cons_of_mem b ha))
    refine ⟨h1, h2, ?_⟩
    rw [h3]
    simp only [List.length_cons]
    omega

/-- C4 (amended): provided the fetched items never pair one `dedupe_key`
with two different `content_hash`es, a second ingest run over the same items
against the session produced by the first run stores nothing, skips all `N`
items, and leaves the rows untouched.  The key-uniqueness hypothesis on the
starting session is the `unique=True` column constraint. -/
theorem ingest_idempotent (db0 : List StoredItem) (items : List ProcessedItem)
    (nid0 now0 nid1 now1 : Nat)
    (hnd : (dbKeys db0).Nodup)
    (hC : ∀ a ∈ items, ∀ b ∈ items,
      a.dedupe_key = b.dedupe_key → a.content_hash = b.content_hash) :
    (ingest (ingest db0 nid0 now0 items).1 nid1 now1 items).2.1.stored = 0 ∧
    (ingest (ingest db0 nid0 now0 items).1 nid1 now1 items).2.1.skipped = items.length ∧
    (ingest (ingest db0 nid0 now0 items).1 nid1 now1 items).1 = (ingest db0 nid0 now0 items).1 := by
  have hnd1 : (dbKeys (ingest db0 nid0 now0 items).1).Nodup :=
    ingestLoop_keys_nodup items db0 _ nid0 now0 hnd
  have hall : ∀ a ∈ items, hasMatch (ingest db0 nid0 now0 items).1 a :=
    ingestLoop_all_match items db0 _ nid0 now0 hC
  obtain ⟨h1, h2, h3⟩ := ingestLoop_all_skipped items (ingest db0 nid0 now0 items).1
    (IngestStats.init items.length) nid1 now1 hnd1 hall
  refine ⟨h2, ?_, h1⟩
  show (ingestLoop (ingest db0 nid0 now0 items).1 (IngestStats.init items.length)
    nid1 now1 items).2.1.skipped = items.length
  rw [h3]
  simp [IngestStats.init]

/-- C4 witness: a two-item source ingested twice from an empty session; the
second run stores 0 and skips 2. -/
theorem ingest_idempotent_witness :
    (ingest (ingest [] 0 1 [⟨"k1", "h1", "t", "b", [], none⟩, ⟨"k2", "h2", "t", "b", [], none⟩]).1
        10 11 [⟨"k1", "h1", "t", "b", [], none⟩, ⟨"k2", "h2", "t", "b", [], none⟩]).2.1.stored = 0 ∧
    (ingest (ingest [] 0 1 [⟨"k1", "h1", "t", "b", [], none⟩, ⟨"k2", "h2", "t", "b", [], none⟩]).1
        10 11 [⟨"k1", "h1", "t", "b", [], none⟩, ⟨"k2", "h2", "t", "b", [], none⟩]).2.1.skipped = 2 ∧
    (ingest (ingest [] 0 1 [⟨"k1", "h1", "t", "b", [], none⟩, ⟨"k2", "h2", "t", "b", [], none⟩]).1
        10 11 [⟨"k1", "h1", "t", "b", [], none⟩, ⟨"k2", "h2", "t", "b", [], none⟩]).1 =
      (ingest [] 0 1 [⟨"k1", "h1", "t", "b", [], none⟩, ⟨"k2", "h2", "t", "b", [], none⟩]).1 :=
  ingest_idempotent [] [⟨"k1", "h1", "t", "b", [], none⟩, ⟨"k2", "h2", "t", "b", [], none⟩]
    0 1 10 11 (by simp [dbKeys]) (by decide)

/-- C4 counterexample: the claim fails without the coherence proviso — a
source that fetches two items with the same `dedupe_key` but different
`content_hash`es is unchanged between runs, yet its second run stores 2 and
skips 0 (each item keeps overwriting the one row back). -/
theorem ingest_idempotent_counterexample :
    (ingest (ingest [] 0 1 [⟨"k", "h1", "t", "b", [], none⟩, ⟨"k", "h2", "t", "b", [], none⟩]).1
        10 11 [⟨"k", "h1", "t", "b", [], none⟩, ⟨"k", "h2", "t", "b", [], none⟩]).2.1.stored = 2 ∧
    (ingest (ingest [] 0 1 [⟨"k", "h1", "t", "b", [], none⟩, ⟨"k", "h2", "t", "b", [], none⟩]).1
        10 11 [⟨"k", "h1", "t", "b", [], none⟩, ⟨"k", "h2", "t", "b", [], none⟩]).2.1.skipped = 0 := by
  decide

/-! ## C5: the rate limiter's wait-and-retry

The code of `AIRateLimiter.acquire` retries with `return await
self.acquire()` — a recursive call, not an iteration — issued while the
caller still holds `self.lock`, and `asyncio.Lock` is not reentrant: the
nested `async with self.lock` waits for a release that only the suspended
outer frame could perform.  So once the limiter is saturated, the blocked
`acquire()` never proceeds, for any recursion depth. -/

/-- A nested call holding the limiter lock never completes, at any depth. -/
theorem acquireRun_locked (maxRequests : Nat) (windowSeconds : Rat)
    (fuel : Nat) (requests : List Rat) (now : Rat) :
    acquireRun maxRequests windowSeconds fuel true requests now = none := by
  cases fuel <;> rfl

/-- C5: with `max_requests = 1` and a 60-second window, the first `acquire`
at time 0 returns immediately and records its timestamp, and the second
`acquire` at time 10 — which should wait 50 seconds and then proceed —
instead never completes (the post-sleep retry blocks on the already-held
lock), whatever recursion depth is explored. -/
theorem acquire_saturated_never_completes (fuel fuel2 : Nat) :
    acquireRun 1 60 fuel2 false [] 0 = some ([0], 0) ∧
    acquireRun 1 60 fuel false [0] 10 = none := by
  constructor
  · cases fuel2 <;> rfl
  · cases fuel with
    | zero => norm_num [acquireRun]
    | succ n =>
      have h : acquireRun 1 60 (n + 1) false [0] 10 =
          acquireRun 1 60 n true [0] 60 := by
        norm_num [acquireRun]
      rw [h, acquireRun_locked]

/-! ## C6: semantic-only query construction -/

/-- The `bool` object inside the `query` section of a search request. -/
def requestBool (req : Json) : Json :=
  ((req.lookup "query").getD (.obj [])).lookup "bool" |>.getD (.obj [])

/-- C6 counterexample: in semantic-only mode with a free-text query but no
query embedding, `build_search_query` does not require anything — it only
logs a warning and returns a well-formed request whose `bool` query carries
no clause at all (matching everything, unscored), with the text query used
only for highlighting. -/
theorem build_search_query_no_embedding_counterexample :
    (build_search_query (some "python") none none none none none
      true false none 1 20).lookup "query" = some (.obj [("bool", .obj [])]) ∧
    (build_search_query (some "python") none none none none none
      true false none 1 20).lookup "highlight" = some highlightSection := by
  constructor <;> rfl

/-- C6 (amended): in semantic-only mode, when a (non-empty) query embedding
is supplied the built query scores documents solely through the required
cosine-similarity clause `cosineSimilarity(query_vector, doc_vector) + 1.0`,
and a free-text query adds no keyword clause (no `should` section exists);
when the embedding is missing the builder degrades to a clause-free query
instead of rejecting the request. -/
theorem build_search_query_semantic_only
    (q source_type primary_language framework : Option String)
    (tags : Option (List String)) (from_date : Option String)
    (page size : Int) (emb : List Rat) (hne : emb ≠ []) :
    (requestBool (build_search_query q source_type primary_language framework
        tags from_date true false (some emb) page size)).lookup "must" =
      some (.arr [vectorQuery emb]) ∧
    (requestBool (build_search_query q source_type primary_language framework
        tags from_date true false (some emb) page size)).lookup "should" = none ∧
    (requestBool (build_search_query q source_type primary_language framework
        tags from_date true false none page size)).lookup "must" = none ∧
    (requestBool (build_search_query q source_type primary_language framework
        tags from_date true false none page size)).lookup "should" = none := by
  have he : truthyList (some emb) = true := by
    simp [truthyList, hne]
  have hmq : (if truthyStr q then
      if true && !false then ([] : List Json)
      else if false then []
      else [keywordQuery (q.getD "")]
    else if !true then [.obj [("match_all", .obj [])]]
    else []) = ([] : List Json) := by
    simp
  have hm1 : mustClauses q true false (some emb) = [vectorQuery emb] := by
    rw [mustClauses, hmq]
    simp [he]
  have hm0 : mustClauses q true false none = [] := by
    rw [mustClauses, hmq]
    simp [truthyList]
  have hs : ∀ qe, shouldClauses q true false qe = [] := by
    intro qe
    rw [shouldClauses]
    simp
  have hrb : ∀ qe, requestBool (build_search_query q source_type primary_language
      framework tags from_date true false qe page size) =
      .obj (boolFields (mustClauses q true false qe) (shouldClauses q true false qe)
        (filterClauses source_type primary_language framework tags from_date) false) := by
    intro qe
    rfl
  refine ⟨?_, ?_, ?_, ?_⟩
  · rw [hrb, hm1, hs]
    cases hF : (filterClauses source_type primary_language framework tags from_date).isEmpty with
    | true => rw [List.isEmpty_iff.mp hF]; rfl
    | false => simp [boolFields, Json.lookup, hF]
  · rw [hrb, hm1, hs]
    cases hF : (filterClauses source_type primary_language framework tags from_date).isEmpty with
    | true => rw [List.isEmpty_iff.mp hF]; rfl
    | false => simp [boolFields, Json.lookup, hF]
  · rw [hrb, hm0, hs]
    cases hF : (filterClauses source_type primary_language framework tags from_date).isEmpty with
    | true => rw [List.isEmpty_iff.mp hF]; rfl
    | false => simp [boolFields, Json.lookup, hF]
  · rw [hrb, hm0, hs]
    cases hF : (filterClauses source_type primary_language framework tags from_date).isEmpty with
    | true => rw [List.isEmpty_iff.mp hF]; rfl
    | false => simp [boolFields, Json.lookup, hF]

/-- C6 witness: the semantic-only request at a concrete embedding carries
exactly the vector clause as `must` and no `should` clause; without an
embedding it carries neither. -/
theorem build_search_query_semantic_only_witness :
    (requestBool (build_search_query (some "python") none none none none none
        true false (some [1]) 1 20)).lookup "must" = some (.arr [vectorQuery [1]]) ∧
    (requestBool (build_search_query (some "python") none none none none none
        true false (some [1]) 1 20)).lookup "should" = none ∧
    (requestBool (build_search_query (some "python") none none none none none
        true false none 1 20)).lookup "must" = none ∧
    (requestBool (build_search_query (some "python") none none none none none
        true false none 1 20)).lookup "should" = none :=
  build_search_query_semantic_only (some "python") none none none none none
    1 20 [1] (by simp)

/-! ## C7: failure semantics of the enrichment task -/

/-- C7: with the provider configured, a provider/network error makes the
invocation retry with the fixed 60-second countdown (bounded by the task's
`max_retries = 3`) without touching the row; a JSON-decode or
schema-validation failure ends the invocation with an error result, no retry
and no write; on success every `ai_*` field is assigned together and
`ai_extracted_at` is stamped — so, starting from an unenriched row,
`ai_extracted_at` is non-null afterwards exactly when the run succeeded. -/
theorem enrich_failure_semantics (item : EnrichedItem)
    (call : Except String String) (jl : String → Option RawEnrichment) (now : Nat) :
    enrichMaxRetries = 3 ∧
    (∀ e, call = .error e →
      enrich_knowledge_item (some item) true call jl now = (.retryAfter 60, some item)) ∧
    (∀ text, call = .ok text →
      (jl (stripFences text) = none ∨
        ∃ raw, jl (stripFences text) = some raw ∧ validateEnrichment raw = none) →
      enrich_knowledge_item (some item) true call jl now = (.parseFailure, some item)) ∧
    (∀ text raw e, call = .ok text → jl (stripFences text) = some raw →
      validateEnrichment raw = some e →
      ∃ item', enrich_knowledge_item (some item) true call jl now = (.success, some item') ∧
        item'.ai_summary = some e.summary ∧ item'.ai_tags = some e.tags ∧
        item'.ai_primary_language = e.primary_language ∧
        item'.ai_framework = e.framework ∧
        item'.ai_quality_score = some e.quality_score ∧
        item'.ai_extracted_at = some now) ∧
    (item.ai_extracted_at = none →
      ∀ item', (enrich_knowledge_item (some item) true call jl now).2 = some item' →
        (item'.ai_extracted_at ≠ none ↔
          (enrich_knowledge_item (some item) true call jl now).1 = .success)) := by
  refine ⟨rfl, ?_, ?_, ?_, ?_⟩
  · intro e he
    rw [he]
    rfl
  · intro text ht hbad
    rw [ht]
    rcases hbad with h | ⟨raw, h1, h2⟩
    · simp [enrich_knowledge_item, h]
    · simp [enrich_knowledge_item, h1, h2]
  · intro text raw e ht h1 h2
    rw [ht]
    refine ⟨{ item with
        ai_summary := some e.summary
        ai_tags := some e.tags
        ai_primary_language := e.primary_language
        ai_framework := e.framework
        ai_quality_score := some e.quality_score
        ai_extracted_at := some now
        code_snippets := mergeSnippets item.code_snippets e.code_snippets },
      ?_, rfl, rfl, rfl, rfl, rfl, rfl⟩
    simp [enrich_knowledge_item, h1, h2]
  · intro hfresh item' hres
    cases call with
    | error e =>
      simp only [enrich_knowledge_item, Bool.not_true] at hres ⊢
      simp only [if_neg (by simp : ¬(false = true))] at hres ⊢
      cases hres
      simp [hfresh]
    | ok text =>
      cases hjl : jl (stripFences text) with
      | none =>
        simp [enrich_knowledge_item, hjl] at hres ⊢
        cases hres
        simp [hfresh]
      | some raw =>
        cases hv : validateEnrichment raw with
        | none =>
          simp [enrich_knowledge_item, hjl, hv] at hres ⊢
          cases hres
          simp [hfresh]
        | some e =>
          simp [enrich_knowledge_item, hjl, hv] at hres ⊢
          cases hres
          simp

/-- C7 witness: the three outcomes at concrete inputs — a provider error is
retried after 60 seconds, an unparsable response is terminal without any
write, and a valid response stamps `ai_extracted_at`. -/
theorem enrich_failure_semantics_witness :
    (enrich_knowledge_item (some ⟨"T", "B", [], none, none, none, none, none, none⟩)
        true (.error "boom") (fun _ => none) 5 =
      (.retryAfter 60, some ⟨"T", "B", [], none, none, none, none, none, none⟩)) ∧
    (enrich_knowledge_item (some ⟨"T", "B", [], none, none, none, none, none, none⟩)
        true (.ok "not json") (fun _ => none) 5 =
      (.parseFailure, some ⟨"T", "B", [], none, none, none, none, none, none⟩)) ∧
    (∃ item', enrich_knowledge_item (some ⟨"T", "B", [], none, none, none, none, none, none⟩)
        true (.ok "ok") (fun _ => some ⟨"sum", ["Python"], some "python", none, 1, []⟩) 5 =
        (.success, some item') ∧ item'.ai_extracted_at = some 5) := by
  refine ⟨?_, ?_, ?_⟩
  · exact (enrich_failure_semantics ⟨"T", "B", [], none, none, none, none, none, none⟩
      (.error "boom") (fun _ => none) 5).2.1 "boom" rfl
  · exact (enrich_failure_semantics ⟨"T", "B", [], none, none, none, none, none, none⟩
      (.ok "not json") (fun _ => none) 5).2.2.1 "not json" rfl (Or.inl rfl)
  · obtain ⟨item', heq, -, -, -, -, -, hext⟩ :=
      (enrich_failure_semantics ⟨"T", "B", [], none, none, none, none, none, none⟩
        (.ok "ok") (fun _ => some ⟨"sum", ["Python"], some "python", none, 1, []⟩) 5).2.2.2.1
        "ok" ⟨"sum", ["Python"], some "python", none, 1, []⟩
        ⟨"sum", ["python"], some "python", none, 1, []⟩ rfl rfl rfl
    exact ⟨item', heq, hext⟩

/-! ## C8: the enrichment schema -/

/-- C8: `KnowledgeItemEnrichment` validation accepts an input exactly when
the summary has at most 500 characters, there are at most 15 tags, and the
quality score lies in `[0, 1]`; each accepted tag is normalized by
lower-casing, trimming surrounding whitespace, hyphenating spaces, and
entries that are empty after trimming are dropped. -/
theorem enrichment_schema (r : RawEnrichment) :
    ((validateEnrichment r).isSome ↔
      (r.summary.length ≤ 500 ∧ r.tags.length ≤ 15 ∧
        0 ≤ r.quality_score ∧ r.quality_score ≤ 1)) ∧
    (∀ e, validateEnrichment r = some e →
      e.summary = r.summary ∧ e.quality_score = r.quality_score ∧
      e.primary_language = r.primary_language ∧ e.framework = r.framework ∧
      e.tags = (r.tags.filter (fun tag => pyStrip tag ≠ "")).map
        (fun tag => pyReplaceSpaceHyphen (pyStrip (pyLower tag)))) := by
  constructor
  · unfold validateEnrichment
    split
    · rename_i h
      simpa using h
    · rename_i h
      simpa using h
  · intro e he
    unfold validateEnrichment at he
    split at he
    · injection he with h
      subst h
      exact ⟨rfl, rfl, rfl, rfl, rfl⟩
    · cases he

/-- C8 witness: a payload with score 1 and tags
`["Python", "React.js", " Hello World ", "  "]` is accepted and its tags
normalize to `["python", "react.js", "hello-world"]`; a score of `3/2` (the
1.5 of the spec) is rejected. -/
theorem enrichment_schema_witness :
    (validateEnrichment ⟨"ok", ["Python", "React.js", " Hello World ", "  "],
      some "python", none, 1, []⟩).isSome = true ∧
    (validateEnrichment ⟨"ok", [], none, none, (3 : Rat) / 2, []⟩).isSome = false ∧
    validateEnrichment ⟨"ok", ["Python", "React.js", " Hello World ", "  "],
        some "python", none, 1, []⟩ =
      some ⟨"ok", ["python", "react.js", "hello-world"], some "python", none, 1, []⟩ := by
  refine ⟨?_, ?_, rfl⟩
  · exact (enrichment_schema _).1.mpr ⟨by decide, by decide, by norm_num, by norm_num⟩
  · rw [Bool.eq_false_iff]
    intro hs
    have h := (enrichment_schema ⟨"ok", [], none, none, (3 : Rat) / 2, []⟩).1.mp hs
    have h2 := h.2.2.2
    norm_num at h2

/-! ## C9: error handling of the ask flow -/

/-- C9: with a configured provider, an empty retrieval returns the fixed
zero-confidence response with empty citations and matched items without
calling the generative provider; and when items were retrieved but the
answer fails JSON decoding or schema validation, the fixed fallback answer
with confidence `1/2` is returned instead of an error. -/
theorem ask_error_handling (semantic : Bool)
    (embedResult : Except String (List Rat))
    (retrieve : Bool → Bool → Option (List Rat) → List RetrievedItem)
    (genResult : Except String String) (jl : String → Option RawAskResponse)
    (top_k : Nat) :
    (retrieve (askSearchArgs semantic embedResult).1 (askSearchArgs semantic embedResult).1
        (askSearchArgs semantic embedResult).2 = [] →
      ask_question true semantic embedResult retrieve genResult jl top_k =
        .ok ⟨noResultsAnswer, 0, [], [], false⟩) ∧
    (∀ text,
      retrieve (askSearchArgs semantic embedResult).1 (askSearchArgs semantic embedResult).1
        (askSearchArgs semantic embedResult).2 ≠ [] →
      genResult = .ok text →
      (match jl (stripFences text) with
        | some raw => validateAskResponse raw
        | none => none) = none →
      ask_question true semantic embedResult retrieve genResult jl top_k =
        .ok ⟨fallbackAnswer, 1 / 2,
          buildCitations (retrieve (askSearchArgs semantic embedResult).1
            (askSearchArgs semantic embedResult).1 (askSearchArgs semantic embedResult).2),
          (retrieve (askSearchArgs semantic embedResult).1
            (askSearchArgs semantic embedResult).1 (askSearchArgs semantic embedResult).2).take top_k,
          true⟩) := by
  constructor
  · intro h0
    unfold ask_question
    dsimp only
    rw [h0]
    rfl
  · intro text hne hgen hparse
    have hF : (retrieve (askSearchArgs semantic embedResult).1
        (askSearchArgs semantic embedResult).1 (askSearchArgs semantic embedResult).2).isEmpty
        = false := by
      rw [← Bool.not_eq_true, List.isEmpty_iff]
      exact hne
    cases hjl : jl (stripFences text) with
    | none => simp [ask_question, hgen, hF, hjl]
    | some raw =>
      rw [hjl] at hparse
      simp only at hparse
      simp [ask_question, hgen, hF, hjl, hparse]

/-- C9 witness: an empty retrieval yields the fixed zero-confidence response
with the provider never called; a one-item retrieval with an unparsable
answer yields the fixed fallback at confidence `1/2`. -/
theorem ask_error_handling_witness :
    (ask_question true true (.ok [1]) (fun _ _ _ => []) (.ok "x") (fun _ => none) 5 =
      .ok ⟨noResultsAnswer, 0, [], [], false⟩) ∧
    (ask_question true true (.ok [1])
        (fun _ _ _ => [⟨some "id1", some "T", some "u", some "s"⟩]) (.ok "x")
        (fun _ => none) 5 =
      .ok ⟨fallbackAnswer, 1 / 2,
        buildCitations [⟨some "id1", some "T", some "u", some "s"⟩],
        [⟨some "id1", some "T", some "u", some "s"⟩].take 5, true⟩) := by
  constructor
  · exact (ask_error_handling true (.ok [1]) (fun _ _ _ => []) (.ok "x")
      (fun _ => none) 5).1 rfl
  · exact (ask_error_handling true (.ok [1])
      (fun _ _ _ => [⟨some "id1", some "T", some "u", some "s"⟩]) (.ok "x")
      (fun _ => none) 5).2 "x" (by simp) rfl rfl

end InfoHunter
